import Mathlib

/-!
Verification of the Arena allocator (`src/arena.h`) and the length-prefixed
string buffer (`src/str.h`).

Embedding conventions:
- `uint64_t` values are `Nat` with explicit `% U64` where C arithmetic wraps.
- Pointers into a region are byte offsets from the region's `base` pointer;
  the base pointer itself is offset `0`.  `NULL` returns become `none`.
- A region's backing memory is a total function `Nat → Nat` from byte offsets
  (relative to `base`) to byte values; `memset`/`memcpy` become pointwise
  overwrites.  Offsets `≥ size` lie outside the usable area (and, since the
  mapping ends exactly at `base + size`, outside the mapping).
-/

def U64 : Nat := 2 ^ 64

/-- `SIZE_MAX` on the 64-bit POSIX targets the header compiles for. -/
def size_max : Nat := 2 ^ 64 - 1

/-- `sizeof(Arena)`: three 8-byte fields (`void *base`, `uint64_t size`,
`uint64_t pos`). -/
def sizeofArena : Nat := 24

/-- `sizeof(Str)`: one `size_t` field; the flexible array member contributes
nothing. -/
def sizeofStr : Nat := 8

/-- The `Arena` struct.  `size` is the usable capacity (`total mmap - header`),
`pos` the cursor, `mem` the bytes of the mapping from `base` on. -/
structure Arena where
  size : Nat
  pos : Nat
  mem : Nat → Nat

/-- `memset(base + off, val, len)` as a memory transformer. -/
def memset (m : Nat → Nat) (off val len : Nat) : Nat → Nat :=
  fun i => if off ≤ i ∧ i < off + len then val else m i

/-- `memcpy(base + off, bs, bs.length)` as a memory transformer. -/
def writeBytes (m : Nat → Nat) (off : Nat) (bs : List Nat) : Nat → Nat :=
  fun i => if off ≤ i ∧ i < off + bs.length then bs.getD (i - off) 0 else m i

/-- `ArenaPush`: fails on zero size; fails when `arena->pos + size >
arena->size` computed in wrapping `uint64_t` arithmetic; otherwise advances
`pos` by `size` (wrapping) and returns `arena->base + arena->pos`, i.e. the
offset of the cursor AFTER the increment. -/
def ArenaPush (arena : Arena) (size : Nat) : Option (Nat × Arena) :=
  if size = 0 then none
  else if (arena.pos + size) % U64 > arena.size then none
  else some ((arena.pos + size) % U64,
             { arena with pos := (arena.pos + size) % U64 })

/-- `ArenaPushZeroInit`: `ArenaPush`, then `memset(ptr, 0, size)` on the
returned pointer. -/
def ArenaPushZeroInit (arena : Arena) (size : Nat) : Option (Nat × Arena) :=
  match ArenaPush arena size with
  | none => none
  | some (ptr, a) => some (ptr, { a with mem := memset a.mem ptr 0 size })

/-- `ArenaPop`: returns `-1` leaving the arena unchanged when
`size > arena->pos`, else retracts `pos` by `size` and returns `0`. -/
def ArenaPop (arena : Arena) (size : Nat) : Int × Arena :=
  if size > arena.pos then (-1, arena)
  else (0, { arena with pos := arena.pos - size })

/-- `ArenaSetPosBack`: refuses to advance the cursor. -/
def ArenaSetPosBack (arena : Arena) (pos : Nat) : Int × Arena :=
  if pos > arena.pos then (-1, arena)
  else (0, { arena with pos := pos })

/-- `ArenaClear`: unconditionally sets `pos` to 0 (no memset). -/
def ArenaClear (arena : Arena) : Arena :=
  { arena with pos := 0 }

/-- `ArenaGetPos`. -/
def ArenaGetPos (arena : Arena) : Nat := arena.pos

/-- `ArenaGetSize`. -/
def ArenaGetSize (arena : Arena) : Nat := arena.size

/-- `ArenaGetBase`: the base pointer, i.e. offset 0 in our representation. -/
def ArenaGetBase (_ : Arena) : Nat := 0

/-- `ArenaTemp`: `hasArena` models whether the stored `Arena *` is non-NULL
(in this single-region embedding the pointer itself is implicit). -/
structure ArenaTemp where
  hasArena : Bool
  pos : Nat

/-- `ArenaScratchBegin`: capture the current cursor. -/
def ArenaScratchBegin (arena : Arena) : ArenaTemp :=
  ⟨true, arena.pos⟩

/-- `ArenaScratchEnd`: if the checkpoint holds an arena pointer, set that
arena's cursor back to the captured value.  The C function reaches the arena
through `temp.arena`; here the (single) region is passed explicitly. -/
def ArenaScratchEnd (arena : Arena) (temp : ArenaTemp) : Arena :=
  if temp.hasArena then { arena with pos := temp.pos } else arena

/-- Result of `ArenaAlloc`: whether the OS reservation call (`mmap`) was
reached, and the region if any. -/
structure AllocOutcome where
  osInvoked : Bool
  region : Option Arena

/-- `ArenaAlloc size` with the platform page size and an oracle `mmapOk` for
whether a well-formed `mmap` call succeeds.  `mmap` with length 0 fails
unconditionally (POSIX `EINVAL`), hence the `total ≠ 0` conjunct.  The C
expression `(size + sizeof(Arena) + page_size - 1) & ~(page_size - 1)` is
wrapping `uint64_t` arithmetic; `~(page_size - 1)` as a 64-bit mask is
`U64 - page`.  On success the mapping is zero-filled (anonymous `mmap`),
`base` is `mem + sizeof(Arena)`, usable size `total - sizeof(Arena)`, cursor
0. -/
def ArenaAlloc (size page : Nat) (mmapOk : Bool) : AllocOutcome :=
  if size = 0 ∨ size > size_max - sizeofArena then ⟨false, none⟩
  else
    let total := ((size + sizeofArena + page - 1) % U64) &&& (U64 - page)
    if mmapOk ∧ total ≠ 0 then
      ⟨true, some ⟨total - sizeofArena, 0, fun _ => 0⟩⟩
    else ⟨true, none⟩

/-- Little-endian bytes of the 8-byte `size_t` header field. -/
def le64 (n : Nat) : List Nat :=
  (List.range 8).map fun k => n / 256 ^ k % 256

/-- Read the 8-byte little-endian `size` field of a `Str` stored at `off`. -/
def readLE64 (m : Nat → Nat) (off : Nat) : Nat :=
  (List.range 8).foldr (fun k acc => acc * 256 + m (off + k)) 0

/-- `PushStr`: the input C string is its byte content before the terminator
(`strlen` = list length).  Pushes `sizeof(Str) + len` bytes, stores `len` in
the header at the returned pointer, copies the payload (no terminator) right
after it. -/
def PushStr (arena : Arena) (inStr : List Nat) : Option (Nat × Arena) :=
  let len := inStr.length
  if len = size_max then none
  else
    match ArenaPush arena (sizeofStr + len) with
    | none => none
    | some (res, a) =>
      let m1 := writeBytes a.mem res (le64 len)
      let m2 := writeBytes m1 (res + sizeofStr) inStr
      some (res, { a with mem := m2 })

/-- `PopStr`: pops `sizeof(Str) + str->size`, reading the stored header at
the record's offset.  The C function discards `ArenaPop`'s status. -/
def PopStr (arena : Arena) (strOff : Nat) : Arena :=
  (ArenaPop arena (sizeofStr + readLE64 arena.mem strOff)).2

/-- One allocator operation on a region, for whole-trace statements.
`scratchEnd i` ends the `i`-th checkpoint created so far (checkpoints are
plain values; any of them may be ended, any number of times). -/
inductive Op where
  | push : Nat → Op
  | pushZeroInit : Nat → Op
  | pop : Nat → Op
  | setPosBack : Nat → Op
  | clear : Op
  | scratchBegin : Op
  | scratchEnd : Nat → Op

/-- A region together with every checkpoint value captured on it so far. -/
structure TraceState where
  arena : Arena
  temps : List ArenaTemp

/-- Apply one operation, exactly as the corresponding C call would. -/
def stepOp (s : TraceState) : Op → TraceState
  | .push n =>
      match ArenaPush s.arena n with
      | none => s
      | some (_, a) => { s with arena := a }
  | .pushZeroInit n =>
      match ArenaPushZeroInit s.arena n with
      | none => s
      | some (_, a) => { s with arena := a }
  | .pop n => { s with arena := (ArenaPop s.arena n).2 }
  | .setPosBack p => { s with arena := (ArenaSetPosBack s.arena p).2 }
  | .clear => { s with arena := ArenaClear s.arena }
  | .scratchBegin => { s with temps := s.temps ++ [ArenaScratchBegin s.arena] }
  | .scratchEnd i =>
      match s.temps.get? i with
      | none => s
      | some t => { s with arena := ArenaScratchEnd s.arena t }

/-- Run a list of operations left to right. -/
def runOps (s : TraceState) : List Op → TraceState
  | [] => s
  | op :: ops => runOps (stepOp s op) ops

/-- The region invariant of the data model: fixed capacity `cap`, cursor
within `[0, cap]`, and every captured checkpoint within `[0, cap]`. -/
def ArenaInv (cap : Nat) (s : TraceState) : Prop :=
  s.arena.size = cap ∧ s.arena.pos ≤ cap ∧ ∀ t ∈ s.temps, t.pos ≤ cap

/-! ## Helper lemmas -/

/-- Rounding-mask identity: for `k ≤ 64` and `x < 2^64`, the C expression
`x & ~(page - 1)` with `page = 2^k` clears the low `k` bits, i.e. rounds `x`
down to a multiple of `2^k`. -/
theorem mask_round (x k : Nat) (hk : k ≤ 64) (hx : x < 2 ^ 64) :
    x &&& (2 ^ 64 - 2 ^ k) = x / 2 ^ k * 2 ^ k := by
  apply Nat.eq_of_testBit_eq
  intro i
  rw [Nat.testBit_and]
  have h1 : x / 2 ^ k * 2 ^ k = (x >>> k) <<< k := by
    rw [Nat.shiftRight_eq_div_pow, Nat.shiftLeft_eq]
  have h2 : 2 ^ 64 - 2 ^ k = (2 ^ (64 - k) - 1) <<< k := by
    rw [Nat.shiftLeft_eq, Nat.sub_mul, one_mul, ← pow_add]
    congr 2
    omega
  rw [h1, h2, Nat.testBit_shiftLeft, Nat.testBit_shiftLeft, Nat.testBit_shiftRight,
    Nat.testBit_two_pow_sub_one]
  by_cases hik : k ≤ i
  · have hge : i ≥ k := hik
    simp only [ge_iff_le, hge, decide_True, Bool.true_and]
    have hki : k + (i - k) = i := by omega
    rw [hki]
    by_cases hi64 : i < 64
    · have : i - k < 64 - k := by omega
      simp [this]
    · have hno : ¬ (i - k < 64 - k) := by omega
      have hbit : x.testBit i = false :=
        Nat.testBit_eq_false_of_lt
          (lt_of_lt_of_le hx (Nat.pow_le_pow_right (by omega) (by omega)))
      simp [hno, hbit]
  · have : ¬ (i ≥ k) := hik
    simp [this]

/-- Anatomy of a successful `ArenaPush`: capacity and memory untouched, new
cursor is the wrapped sum, it is within capacity, and the returned pointer is
the cursor AFTER the increment. -/
theorem ArenaPush_some (a : Arena) (n p : Nat) (a' : Arena)
    (h : ArenaPush a n = some (p, a')) :
    a'.size = a.size ∧ a'.pos = (a.pos + n) % U64 ∧ a'.pos ≤ a.size
    ∧ a'.mem = a.mem ∧ p = a'.pos := by
  unfold ArenaPush at h
  split at h
  · exact absurd h (by simp)
  · split at h
    · exact absurd h (by simp)
    · rename_i h2
      simp only [Option.some.injEq, Prod.mk.injEq] at h
      obtain ⟨hp, ha⟩ := h
      subst ha
      subst hp
      refine ⟨rfl, rfl, ?_, rfl, rfl⟩
      show (a.pos + n) % U64 ≤ a.size
      omega

/-- Every single operation preserves the region invariant. -/
theorem stepOp_inv (cap : Nat) (s : TraceState) (op : Op)
    (h : ArenaInv cap s) : ArenaInv cap (stepOp s op) := by
  obtain ⟨hsz, hpos, htemps⟩ := h
  cases op with
  | push n =>
    simp only [stepOp]
    cases hp : ArenaPush s.arena n with
    | none => exact ⟨hsz, hpos, htemps⟩
    | some pa =>
      obtain ⟨p, a'⟩ := pa
      obtain ⟨h1, h2, h3, _, _⟩ := ArenaPush_some _ _ _ _ hp
      rw [hsz] at h1 h3
      dsimp only
      exact ⟨h1, h3, htemps⟩
  | pushZeroInit n =>
    simp only [stepOp, ArenaPushZeroInit]
    cases hp : ArenaPush s.arena n with
    | none => exact ⟨hsz, hpos, htemps⟩
    | some pa =>
      obtain ⟨p, a'⟩ := pa
      obtain ⟨h1, h2, h3, _, _⟩ := ArenaPush_some _ _ _ _ hp
      rw [hsz] at h1 h3
      dsimp only
      exact ⟨h1, h3, htemps⟩
  | pop n =>
    simp only [stepOp, ArenaPop]
    split
    · exact ⟨hsz, hpos, htemps⟩
    · refine ⟨hsz, ?_, htemps⟩
      show s.arena.pos - n ≤ cap
      omega
  | setPosBack p =>
    simp only [stepOp, ArenaSetPosBack]
    split
    · exact ⟨hsz, hpos, htemps⟩
    · rename_i hc
      refine ⟨hsz, ?_, htemps⟩
      show p ≤ cap
      omega
  | clear =>
    exact ⟨hsz, Nat.zero_le _, htemps⟩
  | scratchBegin =>
    refine ⟨hsz, hpos, ?_⟩
    intro t ht
    simp only [stepOp, List.mem_append, List.mem_singleton] at ht
    rcases ht with ht | ht
    · exact htemps t ht
    · rw [ht]
      exact hpos
  | scratchEnd i =>
    simp only [stepOp]
    cases hg : s.temps.get? i with
    | none => exact ⟨hsz, hpos, htemps⟩
    | some t =>
      have hmem : t ∈ s.temps := List.get?_mem hg
      simp only [ArenaScratchEnd]
      split
      · exact ⟨hsz, htemps t hmem, htemps⟩
      · exact ⟨hsz, hpos, htemps⟩

/-! ## Claim theorems -/

/-- Claim C1 (code bug): after `ArenaClear` sets the cursor to 0, the next
successful `ArenaPush` does NOT return the region's base reference.  On a
16-byte region, cleared, `ArenaPush` of 4 bytes succeeds but returns offset 4
(`base + pos` AFTER the increment, the end of the carved block), while the
base reference is offset 0.  The claim requires the returned reference to
equal the base, i.e. the start of the block. -/
theorem clear_then_push_returns_past_base :
    ArenaGetPos (ArenaClear ⟨16, 7, fun _ => 0⟩) = 0
    ∧ (ArenaPush (ArenaClear ⟨16, 7, fun _ => 0⟩) 4).map Prod.fst = some 4
    ∧ ArenaGetBase (ArenaClear ⟨16, 7, fun _ => 0⟩) = 0
    ∧ (4 : Nat) ≠ 0 := by
  exact ⟨rfl, by decide, rfl, by decide⟩

/-- Claim C2 (confirmed): for every region and every sequence of allocator
operations, the cursor stays within `[0, capacity]`, the capacity never
changes, and every captured checkpoint also stays within `[0, capacity]`. -/
theorem arena_ops_invariant (cap : Nat) (ops : List Op) (s : TraceState)
    (h : ArenaInv cap s) : ArenaInv cap (runOps s ops) := by
  induction ops generalizing s with
  | nil => exact h
  | cons op ops ih => exact ih _ (stepOp_inv cap s op h)

/-- Witness for C2 at a concrete trace. -/
theorem arena_ops_invariant_witness :
    ArenaInv 4096
      (runOps ⟨⟨4096, 0, fun _ => 0⟩, []⟩
        [.push 10, .scratchBegin, .push 20, .pop 5, .scratchEnd 0, .clear]) :=
  arena_ops_invariant 4096 _ _ ⟨rfl, by decide, by decide⟩

/-- Claim C3 (code bug): `ArenaPush` is claimed to fail whenever
`cursor + size > capacity` in exact arithmetic, but the check is computed in
wrapping `uint64_t` arithmetic: on a 4096-byte region with cursor 1, pushing
`2^64 - 1` bytes succeeds (the sum wraps to 0), leaving the cursor at 0,
although `1 + (2^64 - 1) > 4096`. -/
theorem push_wraparound_bypasses_capacity_check :
    (ArenaPush ⟨4096, 1, fun _ => 0⟩ (2 ^ 64 - 1)).isSome = true
    ∧ (ArenaPush ⟨4096, 1, fun _ => 0⟩ (2 ^ 64 - 1)).map (fun pa => pa.2.pos) = some 0
    ∧ 4096 < 1 + (2 ^ 64 - 1) := by
  refine ⟨by decide, by decide, by norm_num⟩

/-- Claim C4 (corrected): as stated the claim fails at `s = 0` (`ArenaPush`
rejects zero sizes although `0 ≤ capacity − position`).  Counterexample on a
fresh 4096-byte region. -/
theorem push_zero_size_counterexample :
    ArenaPush ⟨4096, 0, fun _ => 0⟩ 0 = none ∧ (0 : Nat) ≤ 4096 - 0 :=
  ⟨rfl, by decide⟩

/-- Claim C4 as amended: for every region (with its `uint64_t` capacity) and
every size `s` with `1 ≤ s ≤ capacity − position`, `ArenaPush` succeeds and
the new position equals the old position plus `s`. -/
theorem push_in_bounds_succeeds (a : Arena) (s : Nat)
    (hs : 1 ≤ s) (hle : s ≤ a.size - a.pos) (hcap : a.size < U64) :
    ∃ p a', ArenaPush a s = some (p, a') ∧ a'.pos = a.pos + s := by
  have hps : a.pos + s ≤ a.size := by omega
  have hmod : (a.pos + s) % U64 = a.pos + s :=
    Nat.mod_eq_of_lt (lt_of_le_of_lt hps hcap)
  refine ⟨a.pos + s, { a with pos := a.pos + s }, ?_, rfl⟩
  unfold ArenaPush
  rw [if_neg (by omega), hmod, if_neg (by omega)]

/-- Witness for the amended C4. -/
theorem push_in_bounds_succeeds_witness :
    ∃ p a', ArenaPush ⟨4096, 10, fun _ => 0⟩ 20 = some (p, a') ∧ a'.pos = 10 + 20 :=
  push_in_bounds_succeeds ⟨4096, 10, fun _ => 0⟩ 20 (by decide) (by decide) (by decide)

/-- Claim C5 (code bug): on success `ArenaPushZeroInit` is claimed to zero
the newly carved block before returning.  On a fresh 4096-byte region whose
bytes all hold the stale value 170, pushing 4 bytes carves the block at
offsets `[0, 4)`, but the code `memset`s the returned pointer — the cursor
AFTER the increment — so the carved block still holds 170 and the 4 bytes
beyond the cursor at `[4, 8)` get zeroed instead. -/
theorem push_zeroinit_zeroes_wrong_block :
    (ArenaPushZeroInit ⟨4096, 0, fun _ => 170⟩ 4).map
        (fun pa => (pa.2.pos, pa.2.mem 0, pa.2.mem 3, pa.2.mem 4, pa.2.mem 7))
      = some (4, 170, 170, 0, 0) := by
  decide

/-- Claim C6 (code bug): `PushStr` writes the record at the pointer returned
by the buggy `ArenaPush`, i.e. at the cursor AFTER the increment.  On a
32-byte region holding stale bytes 7, pushing a 24-byte string succeeds (the
record needs `8 + 24 = 32` bytes, exactly the capacity), yet the returned
record sits at offset 32 — the end of the usable region — the carved block
`[0, 32)` is left untouched, and the payload is written from offset 40 on,
entirely outside the region's memory. -/
theorem pushstr_record_outside_region :
    (PushStr ⟨32, 0, fun _ => 7⟩ (List.replicate 24 65)).map
        (fun pa => (pa.1, pa.2.pos, pa.2.size, pa.2.mem 0, pa.2.mem 31, pa.2.mem 40))
      = some (32, 32, 32, 7, 7, 65) := by
  decide

/-- Claim C7 (confirmed): `ArenaPop` fails (returns `-1`) leaving the region
unchanged exactly when the requested size exceeds the cursor; otherwise it
returns `0` and retracts the cursor by the size. -/
theorem pop_underflow_exact (a : Arena) (s : Nat) :
    ((ArenaPop a s).1 = -1 ∧ (ArenaPop a s).2 = a ↔ a.pos < s)
    ∧ (s ≤ a.pos → (ArenaPop a s).1 = 0 ∧ (ArenaPop a s).2.pos = a.pos - s) := by
  by_cases h : a.pos < s <;> simp [ArenaPop, h]

/-- Witness for C7, the spec's Scenario B tail: at position 10, `Pop(20)`
fails with the position unchanged; at position 30, `Pop(20)` retracts to
10. -/
theorem pop_underflow_exact_witness :
    ((ArenaPop ⟨4096, 10, fun _ => 0⟩ 20).1 = -1
      ∧ (ArenaPop ⟨4096, 10, fun _ => 0⟩ 20).2 = ⟨4096, 10, fun _ => 0⟩)
    ∧ ((ArenaPop ⟨4096, 30, fun _ => 0⟩ 20).1 = 0
      ∧ (ArenaPop ⟨4096, 30, fun _ => 0⟩ 20).2.pos = 30 - 20) :=
  ⟨(pop_underflow_exact ⟨4096, 10, fun _ => 0⟩ 20).1.mpr (by decide),
   (pop_underflow_exact ⟨4096, 30, fun _ => 0⟩ 20).2 (by decide)⟩

/-- Claim C8 (confirmed): `ArenaAlloc` fails without reaching the OS on a
zero request and on a request exceeding `SIZE_MAX - sizeof(Arena)`; on
success the region's usable capacity is the page-rounded total minus the
header size — a multiple of the page size less the header, at least the
request, less than request + header + page — with the cursor at 0. -/
theorem arena_alloc_spec (size page k : Nat) (mmapOk : Bool)
    (hp : page = 2 ^ k) (hk : k ≤ 64) :
    (size = 0 → ArenaAlloc size page mmapOk = ⟨false, none⟩)
    ∧ (size_max - sizeofArena < size → ArenaAlloc size page mmapOk = ⟨false, none⟩)
    ∧ (∀ a, (ArenaAlloc size page mmapOk).region = some a →
        (ArenaAlloc size page mmapOk).osInvoked = true
        ∧ size ≤ a.size
        ∧ (a.size + sizeofArena) % page = 0
        ∧ a.size + sizeofArena < size + sizeofArena + page
        ∧ a.pos = 0) := by
  have hpage1 : 1 ≤ page := by subst hp; exact Nat.one_le_two_pow
  have hU : U64 = 18446744073709551616 := by norm_num [U64]
  have hsA : sizeofArena = 24 := rfl
  have hsm : size_max = 18446744073709551615 := by norm_num [size_max]
  have hpLe : page ≤ 18446744073709551616 := by
    subst hp
    calc 2 ^ k ≤ 2 ^ 64 := Nat.pow_le_pow_right (by omega) hk
    _ = 18446744073709551616 := by norm_num
  refine ⟨?_, ?_, ?_⟩
  · intro h
    simp [ArenaAlloc, h]
  · intro h
    have : size = 0 ∨ size_max - sizeofArena < size := Or.inr h
    simp only [ArenaAlloc, gt_iff_lt, this, if_pos]
  · intro a ha
    by_cases h0 : size = 0 ∨ size_max - sizeofArena < size
    · simp [ArenaAlloc, h0] at ha
    · push_neg at h0
      obtain ⟨h1, h2⟩ := h0
      have hsz : size ≤ 2 ^ 64 - 25 := by omega
      set x := size + sizeofArena + page - 1 with hxdef
      have hmod : x % U64 < 2 ^ 64 := Nat.mod_lt _ (by norm_num [U64])
      have hmask : (x % U64) &&& (U64 - page) = (x % U64) / page * page := by
        subst hp
        exact mask_round _ k hk hmod
      set total := ((x % U64) &&& (U64 - page)) with htot
      have hguard : ¬ (size = 0 ∨ size_max - sizeofArena < size) := by
        push_neg
        exact ⟨h1, h2⟩
      have e1 : page * ((x % U64) / page) + (x % U64) % page = x % U64 :=
        Nat.div_add_mod _ _
      have e2 : total = page * ((x % U64) / page) := by
        rw [hmask, Nat.mul_comm]
      have e3 : (x % U64) % page < page := Nat.mod_lt _ hpage1
      simp only [ArenaAlloc, gt_iff_lt, hguard, if_neg, not_false_iff] at ha
      rw [← htot] at ha
      by_cases hc : mmapOk = true ∧ total ≠ 0
      · have hAll : (if mmapOk ∧ total ≠ 0 then
              (⟨true, some ⟨total - sizeofArena, 0, fun _ => 0⟩⟩ : AllocOutcome)
            else ⟨true, none⟩) = ⟨true, some ⟨total - sizeofArena, 0, fun _ => 0⟩⟩ := by
          rw [if_pos]
          exact ⟨hc.1, hc.2⟩
        rw [hAll] at ha
        simp only [Option.some.injEq] at ha
        subst ha
        have hx24 : x = size + 24 + page - 1 := by omega
        have hxlt : x < U64 := by
          by_contra hw
          push_neg at hw
          rw [hU] at hw
          have hxm : x % U64 = x - 18446744073709551616 := by
            rw [hU]
            omega
          have hsmall : x % U64 < page := by
            rw [hxm]
            omega
          have hz : (x % U64) / page = 0 := Nat.div_eq_of_lt hsmall
          rw [hz, Nat.mul_zero] at e2
          exact hc.2 e2
        have hxx : x % U64 = x := Nat.mod_eq_of_lt hxlt
        rw [hxx] at e1 e3 e2
        have htmod : total % page = 0 := by
          rw [e2, Nat.mul_comm]
          exact Nat.mul_mod_left _ _
        have htb : size + sizeofArena ≤ total ∧ total ≤ x := by omega
        refine ⟨?_, ?_, ?_, ?_, rfl⟩
        · simp only [ArenaAlloc, gt_iff_lt, hguard, if_neg, not_false_iff]
          rw [← htot, hAll]
        · show size ≤ total - sizeofArena
          omega
        · show (total - sizeofArena + sizeofArena) % page = 0
          have he : total - sizeofArena + sizeofArena = total := by omega
          rw [he]
          exact htmod
        · show total - sizeofArena + sizeofArena < size + sizeofArena + page
          omega
      · rw [if_neg] at ha
        · simp at ha
        · intro hcc
          exact hc ⟨hcc.1, hcc.2⟩

/-- Witness for C8: a zero request fails without reaching the OS; reserving
64 bytes with 4096-byte pages yields usable capacity `4096 - 24 = 4072 ≥
64`. -/
theorem arena_alloc_spec_witness :
    (ArenaAlloc 0 4096 true = ⟨false, none⟩)
    ∧ (ArenaAlloc 64 4096 true).region.map ArenaGetSize = some 4072
    ∧ (64 : Nat) ≤ 4072 :=
  ⟨(arena_alloc_spec 0 4096 12 true (by norm_num) (by norm_num)).1 rfl,
   by decide,
   ((arena_alloc_spec 64 4096 12 true (by norm_num) (by norm_num)).2.2
      ⟨4072, 0, fun _ => 0⟩ rfl).2.1⟩

/-- Claim C9 (confirmed): ending a scratch checkpoint restores the cursor to
exactly the value captured at `ArenaScratchBegin`, whatever operations ran in
between. -/
theorem scratch_end_restores_position (a : Arena) (temps : List ArenaTemp)
    (ops : List Op) :
    (ArenaScratchEnd (runOps ⟨a, temps⟩ ops).arena (ArenaScratchBegin a)).pos
      = a.pos := by
  simp [ArenaScratchEnd, ArenaScratchBegin]

/-- Claim C10 (confirmed): `ArenaPop` with size 0 returns the success status
`0` and leaves the region unchanged, while `ArenaPush` rejects size 0. -/
theorem pop_zero_succeeds (a : Arena) :
    (ArenaPop a 0).1 = 0 ∧ (ArenaPop a 0).2 = a ∧ ArenaPush a 0 = none := by
  simp [ArenaPop, ArenaPush]
